import Mathlib

/-!
Shallow embedding of `src/serverless.js` (the `Website` component of
elbstack/serverless-component-website).

The component is a sequential orchestration of external calls (bucket
provisioning, DNS record configuration, filesystem writes, a build hook,
an upload, and a state save).  We embed each external call as an `Event`
and the two operations `default` (deploy) and `remove` as pure functions
producing the list of calls they emit, given the persisted state and the
inputs.  None of the call arguments in the source depend on the results
of earlier calls (the only call result used, `bucketOutputs.name`, enters
only the persisted `url`), so the emitted call sequence is a pure function
of the inputs, the persisted state and ambient context (cwd, resourceId,
the bucket name returned by the child component).  Failures of external
calls are modelled by an oracle deciding which call throws; execution
stops at the first throwing call.

JavaScript `undefined`-able string fields are `Option String`; JS
truthiness of such a field is `truthy` below (absent or empty string is
falsy).  Node's `path.resolve` / `path.join` are external library calls,
modelled just to the extent the source relies on them (absolute result /
concatenation with a separator).
-/

/-- JSON-serializable values, as far as `JSON.stringify` is applied to
`env` entries in the source. -/
inductive JsonValue where
  | str (s : String)
  | num (n : Int)
  | bool (b : Bool)
  | null
deriving DecidableEq, Repr

/-- Escaping of one character inside a JSON string literal, as
`JSON.stringify` renders it. -/
def jsonEscapeChar (c : Char) : String :=
  if c = '"' then "\\\""
  else if c = '\\' then "\\\\"
  else if c = '\n' then "\\n"
  else if c = '\r' then "\\r"
  else if c = '\t' then "\\t"
  else String.singleton c

/-- JSON string literal rendering (the quoted, escaped form). -/
def jsonQuote (s : String) : String :=
  "\"" ++ String.join (s.data.map jsonEscapeChar) ++ "\""

/-- Model of `JSON.stringify` on the values of the `env` mapping. -/
def JsonValue.stringify : JsonValue → String
  | .str s => jsonQuote s
  | .num n => toString n
  | .bool b => if b then "true" else "false"
  | .null => "null"

/-- JS truthiness of a possibly-`undefined` string field: `undefined` and
the empty string are falsy. -/
def truthy : Option String → Bool
  | none => false
  | some s => s ≠ ""

/-- JS `a || b` where `a` is a possibly-`undefined` string and `b` a
string: `a` when truthy, else `b`. -/
def orDefault (a : Option String) (b : String) : String :=
  if truthy a then a.getD "" else b

/-- The `code` sub-object of the inputs (`inputs.code`). -/
structure Code where
  root : Option String := none
  src : Option String := none
  hook : Option String := none
deriving DecidableEq, Repr

/-- The raw inputs of `Website.default`. -/
structure Inputs where
  code : Option Code := none
  region : Option String := none
  domain : Option String := none
  env : Option (List (String × JsonValue)) := none
deriving DecidableEq, Repr

/-- The persisted component state (`this.state`).  All fields may be
absent (`\x7b}` before the first deploy). -/
structure PersistedState where
  bucketName : Option String := none
  domain : Option String := none
  region : Option String := none
  url : Option String := none
deriving DecidableEq, Repr

/-- The empty state written by `remove`. -/
def emptyState : PersistedState := {}

/-- Model of Node `path.resolve(p)`: resolve `p` against the current
working directory; an already-absolute path is kept. -/
def pathResolve (cwd p : String) : String :=
  if p.startsWith "/" then p else cwd ++ "/" ++ p

/-- Model of Node `path.join(a, b)`. -/
def pathJoin (a b : String) : String :=
  a ++ "/" ++ b

/-- The inputs after the normalization at the top of `Website.default`
(lines 34-40 of `src/serverless.js`). -/
structure ResolvedInputs where
  codeRoot : String
  codeSrc : Option String
  hook : Option String
  region : String
  domain : Option String
  bucketName : String
  env : Option (List (String × JsonValue))
deriving DecidableEq, Repr

/-- Input normalization, translated line by line from
`src/serverless.js` lines 34-40:
`inputs.code = inputs.code || \x7b}`;
`inputs.code.root = inputs.code.root ? path.resolve(inputs.code.root) : process.cwd()`;
`if (inputs.code.src) inputs.code.src = path.join(inputs.code.root, inputs.code.src)`;
`inputs.region = inputs.region || 'us-east-1'`;
`inputs.bucketName = this.state.bucketName || inputs.domain || this.context.resourceId()`. -/
def resolveInputs (cwd resourceId : String) (st : PersistedState) (inp : Inputs) :
    ResolvedInputs :=
  let code := inp.code.getD {}
  let root := if truthy code.root then pathResolve cwd (code.root.getD "") else cwd
  let src := if truthy code.src then some (pathJoin root (code.src.getD "")) else code.src
  let region := orDefault inp.region "us-east-1"
  let bucketName := orDefault st.bucketName (orDefault inp.domain resourceId)
  { codeRoot := root
    codeSrc := src
    hook := code.hook
    region := region
    domain := inp.domain
    bucketName := bucketName
    env := inp.env }

/-- The action argument of `configureDomainForBucket`: upsert (the
default) or `'DELETE'`. -/
inductive RecordAction where
  | upsert
  | delete
deriving DecidableEq, Repr

/-- One external call made by the component.  Each constructor records
the arguments the source passes to the corresponding collaborator. -/
inductive Event where
  /-- The `websiteBucket` child component deploy (name, region). -/
  | deployBucket (name : String) (region : String)
  /-- `configureBucketForHosting(s3, bucketName)`. -/
  | configureHosting (bucket : String)
  /-- The `redirectBucket` child component deploy (name, region). -/
  | deployRedirectBucket (name : String) (region : String)
  /-- `configureBucketForRedirect(s3, redirectBucket, domain)`. -/
  | configureRedirect (bucket : String) (target : String)
  /-- `configureDomainForBucket(route53, domain, region[, 'DELETE'])`. -/
  | dnsRecord (domain : String) (region : Option String) (action : RecordAction)
  /-- `utils.writeFile(envFilePath, script)`. -/
  | writeEnvFile (path : String) (content : String)
  /-- `exec(inputs.code.hook, \x7b cwd: inputs.code.root })`. -/
  | runHook (cmd : String) (cwd : String)
  /-- `websiteBucket.upload(\x7b dir: dirToUploadPath })`. -/
  | upload (dir : String)
  /-- `this.save()` after assigning the new state fields. -/
  | saveState (st : PersistedState)
  /-- `<child>.remove()` for the child component with the given alias. -/
  | removeChild (childAlias : String)
deriving DecidableEq, Repr

/-- Whether an event is the build-hook execution. -/
def Event.isHook : Event → Bool
  | .runHook _ _ => true
  | _ => false

/-- Whether an event is the artifact upload. -/
def Event.isUpload : Event → Bool
  | .upload _ => true
  | _ => false

/-- Whether an event is a state save. -/
def Event.isSave : Event → Bool
  | .saveState _ => true
  | _ => false

/-- Whether an event is a DNS record deletion. -/
def Event.isDnsDelete : Event → Bool
  | .dnsRecord _ _ .delete => true
  | _ => false

/-- Whether an event belongs to the domain-binding block (redirect-bucket
provisioning, redirect configuration, or a DNS upsert). -/
def Event.isDomainBind : Event → Bool
  | .deployRedirectBucket _ _ => true
  | .configureRedirect _ _ => true
  | .dnsRecord _ _ .upsert => true
  | _ => false

/-- Whether an event is the env-bundle file write. -/
def Event.isEnvWrite : Event → Bool
  | .writeEnvFile _ _ => true
  | _ => false

/-- Calls of lines 45-55: deploy the `websiteBucket` child and configure
it for hosting. -/
def provisionCalls (r : ResolvedInputs) : List Event :=
  [Event.deployBucket r.bucketName r.region,
   Event.configureHosting r.bucketName]

/-- Calls of the `if (inputs.domain)` block, lines 57-76: deploy the
`www.<domain>` redirect bucket, configure it to redirect to the bare
domain, and upsert DNS records for both variants (region from the new
inputs). -/
def domainBindCalls (r : ResolvedInputs) : List Event :=
  if truthy r.domain then
    [Event.deployRedirectBucket ("www." ++ r.domain.getD "") r.region,
     Event.configureRedirect ("www." ++ r.domain.getD "") (r.domain.getD ""),
     Event.dnsRecord (r.domain.getD "") (some r.region) RecordAction.upsert,
     Event.dnsRecord ("www." ++ r.domain.getD "") (some r.region) RecordAction.upsert]
  else []

/-- Calls of the drift-check block, lines 78-90: when the persisted
domain is truthy and differs from the new one, delete the old bare and
`www.`-prefixed records, passing the persisted domain and the persisted
region. -/
def driftCalls (st : PersistedState) (r : ResolvedInputs) : List Event :=
  if truthy st.domain && st.domain ≠ r.domain then
    [Event.dnsRecord (st.domain.getD "") st.region RecordAction.delete,
     Event.dnsRecord ("www." ++ st.domain.getD "") st.region RecordAction.delete]
  else []

/-- The content of the env bundle, lines 96-101: a `window.env = \x7b};`
header followed by one global assignment per entry, values rendered by
`JSON.stringify`. -/
def envScript (env : List (String × JsonValue)) : String :=
  env.foldl
    (fun acc p => acc ++ "window.env." ++ p.1 ++ " = " ++ p.2.stringify ++ ";\n")
    "window.env = \x7b\x7d;\n"

/-- Calls of the env-bundle block, lines 93-105: guarded by
`inputs.env && Object.keys(inputs.env).length && inputs.code.root`,
writes `env.js` into `code.root`. -/
def envCalls (r : ResolvedInputs) : List Event :=
  if r.env.isSome && (r.env.getD []).length ≠ 0 && r.codeRoot ≠ "" then
    [Event.writeEnvFile (pathJoin r.codeRoot "env.js") (envScript (r.env.getD []))]
  else []

/-- Calls of the build-hook block, lines 108-121: guarded by
`if (inputs.code.hook)`, runs the hook in `code.root`. -/
def hookCalls (r : ResolvedInputs) : List Event :=
  if truthy r.hook then [Event.runHook (r.hook.getD "") r.codeRoot] else []

/-- The directory uploaded at line 125: `inputs.code.src || inputs.code.root`. -/
def dirToUpload (r : ResolvedInputs) : String :=
  orDefault r.codeSrc r.codeRoot

/-- The website endpoint URL persisted at line 136, built from the name
returned by the `websiteBucket` child and the region. -/
def websiteUrl (bucketOutName region : String) : String :=
  "http://" ++ bucketOutName ++ ".s3-website-" ++ region ++ ".amazonaws.com"

/-- The state assigned at lines 133-136 and persisted by `this.save()`. -/
def newDeployState (bucketOutName : String) (r : ResolvedInputs) : PersistedState :=
  { bucketName := some r.bucketName
    domain := r.domain
    region := some r.region
    url := some (websiteUrl bucketOutName r.region) }

/-- The outputs returned at lines 142-151. -/
structure Outputs where
  url : String
  env : List (String × JsonValue)
  domain : Option String := none
deriving DecidableEq, Repr

/-- The outputs of a successful deploy: `url`, the `env` echo
(`inputs.env || \x7b}`), and `domain` prefixed with `http://` exactly when
`inputs.domain` is truthy. -/
def deployOutputs (bucketOutName : String) (r : ResolvedInputs) : Outputs :=
  { url := websiteUrl bucketOutName r.region
    env := r.env.getD []
    domain := if truthy r.domain then some ("http://" ++ r.domain.getD "") else none }

/-- Ambient context of one deploy run: the process working directory,
the generated resource identifier, the bucket name returned by the
`websiteBucket` child, the stderr captured if the build hook fails, and
the oracle telling which external calls throw. -/
structure DeployCtx where
  cwd : String
  resourceId : String
  bucketOutName : String
  hookStderr : String
  oracle : Event → Bool

/-- The full sequence of external calls one deploy emits when nothing
throws, in source order: provisioning, hosting configuration, the
domain-binding block, the drift check, the env bundle, the build hook,
the upload, and the final state save. -/
def deployCalls (ctx : DeployCtx) (st : PersistedState) (inp : Inputs) : List Event :=
  let r := resolveInputs ctx.cwd ctx.resourceId st inp
  provisionCalls r ++ domainBindCalls r ++ driftCalls st r ++ envCalls r ++
    hookCalls r ++ [Event.upload (dirToUpload r)] ++
    [Event.saveState (newDeployState ctx.bucketOutName r)]

/-- Errors a run can raise: an external call throwing (propagated
verbatim), or the wrapped build-hook error of lines 117-119. -/
inductive DeployError where
  | provider (e : Event)
  | hookFailed (msg : String)
deriving DecidableEq, Repr

/-- The error raised when call `e` throws: the hook failure is wrapped
with the message of lines 117-119; every other failure propagates. -/
def mkError (ctx : DeployCtx) : Event → DeployError
  | .runHook cmd _ =>
      .hookFailed ("Failed building website via \"" ++ cmd ++
        "\" due to the following error: \"" ++ ctx.hookStderr ++ "\"")
  | e => .provider e

/-- Split a call sequence at the first call the oracle makes throw:
`some (pre, e)` with the successful prefix and the throwing call, or
`none` when every call succeeds. -/
def splitAtFailure (o : Event → Bool) : List Event → Option (List Event × Event)
  | [] => none
  | e :: rest =>
    if o e then some ([], e)
    else
      match splitAtFailure o rest with
      | some (pre, f) => some (e :: pre, f)
      | none => none

/-- Result of one run: the calls actually made (the throwing one
included), the returned outputs or raised error, and the state persisted
after the run. -/
structure RunResult where
  trace : List Event
  result : Except DeployError Outputs
  finalState : PersistedState

/-- One deploy run: execute `deployCalls` until the first throwing call.
On failure the persisted state is untouched (the save is the last call);
on success the new state and the outputs are produced. -/
def runDeploy (ctx : DeployCtx) (st : PersistedState) (inp : Inputs) : RunResult :=
  let calls := deployCalls ctx st inp
  let r := resolveInputs ctx.cwd ctx.resourceId st inp
  match splitAtFailure ctx.oracle calls with
  | some (pre, e) =>
      { trace := pre ++ [e], result := .error (mkError ctx e), finalState := st }
  | none =>
      { trace := calls, result := .ok (deployOutputs ctx.bucketOutName r),
        finalState := newDeployState ctx.bucketOutName r }

/-- The full sequence of external calls `Website.remove` emits (lines
158-187): remove the `websiteBucket` child; when the persisted domain is
truthy, delete both DNS records (persisted domain and region) and remove
the `redirectBucket` child; finally persist empty state. -/
def removeCalls (st : PersistedState) : List Event :=
  [Event.removeChild "websiteBucket"] ++
    (if truthy st.domain then
      [Event.dnsRecord (st.domain.getD "") st.region RecordAction.delete,
       Event.dnsRecord ("www." ++ st.domain.getD "") st.region RecordAction.delete,
       Event.removeChild "redirectBucket"]
    else []) ++
    [Event.saveState emptyState]

/-- One remove run: execute `removeCalls` until the first throwing call;
on success the persisted state is cleared and `\x7b}` returned. -/
def runRemove (o : Event → Bool) (st : PersistedState) : RunResult :=
  match splitAtFailure o (removeCalls st) with
  | some (pre, e) =>
      { trace := pre ++ [e], result := .error (mkError ⟨"", "", "", "", o⟩ e),
        finalState := st }
  | none =>
      { trace := removeCalls st,
        result := .ok { url := "", env := [] },
        finalState := emptyState }

/-! ### Helper lemmas -/

theorem resolveInputs_domain (cwd rid : String) (st : PersistedState) (inp : Inputs) :
    (resolveInputs cwd rid st inp).domain = inp.domain := rfl

theorem resolveInputs_env (cwd rid : String) (st : PersistedState) (inp : Inputs) :
    (resolveInputs cwd rid st inp).env = inp.env := rfl

theorem resolveInputs_hook (cwd rid : String) (st : PersistedState) (inp : Inputs) :
    (resolveInputs cwd rid st inp).hook = (inp.code.getD {}).hook := rfl

theorem splitAtFailure_eq_none (o : Event → Bool) (l : List Event)
    (h : ∀ e ∈ l, o e = false) : splitAtFailure o l = none := by
  induction l with
  | nil => rfl
  | cons e rest ih =>
    have he : o e = false := h e (List.mem_cons_self e rest)
    have hr := ih (fun x hx => h x (List.mem_cons_of_mem e hx))
    simp [splitAtFailure, he, hr]

theorem splitAtFailure_append (o : Event → Bool) (l1 l2 : List Event)
    (h : ∀ e ∈ l1, o e = false) :
    splitAtFailure o (l1 ++ l2) =
      (splitAtFailure o l2).map (fun pf => (l1 ++ pf.1, pf.2)) := by
  induction l1 with
  | nil =>
    simp only [List.nil_append]
    cases splitAtFailure o l2 <;> simp
  | cons e rest ih =>
    have he : o e = false := h e (List.mem_cons_self e rest)
    have hr := ih (fun x hx => h x (List.mem_cons_of_mem e hx))
    simp only [List.cons_append, splitAtFailure, he, Bool.false_eq_true, if_false,
      List.append_eq]
    rw [hr]
    cases splitAtFailure o l2 <;> rfl

theorem filter_ite {c : Prop} [Decidable c] (l : List Event) (p : Event → Bool) :
    (if c then l else []).filter p = if c then l.filter p else [] := by
  split <;> rfl

theorem resolveInputs_bucketName (cwd rid : String) (st : PersistedState) (inp : Inputs) :
    (resolveInputs cwd rid st inp).bucketName =
      orDefault st.bucketName (orDefault inp.domain rid) := rfl

theorem resolveInputs_region (cwd rid : String) (st : PersistedState) (inp : Inputs) :
    (resolveInputs cwd rid st inp).region = orDefault inp.region "us-east-1" := rfl

theorem resolveInputs_codeRoot (cwd rid : String) (st : PersistedState) (inp : Inputs) :
    (resolveInputs cwd rid st inp).codeRoot =
      if truthy (inp.code.getD {}).root then pathResolve cwd ((inp.code.getD {}).root.getD "")
      else cwd := rfl

theorem append_sep_ne_empty (a b : String) : a ++ "/" ++ b ≠ "" := by
  intro h
  have h2 := congrArg String.data h
  simp [String.data_append] at h2

/-! ### Claims -/

/-- C3: input normalization resolves `bucketName` with the priority
persisted bucket name, else requested domain, else the generated
resource identifier; with a persisted (non-empty) bucket name `x` the
result is `x` regardless of the other inputs, and with no persisted
bucket name and no domain the result is the generated identifier
(non-empty whenever the identifier is) while an absent region defaults
to `us-east-1`. -/
theorem bucketName_resolution_priority (cwd rid : String) (st : PersistedState)
    (inp : Inputs) :
    (∀ x, st.bucketName = some x → x ≠ "" →
      (resolveInputs cwd rid st inp).bucketName = x) ∧
    (∀ d, truthy st.bucketName = false → inp.domain = some d → d ≠ "" →
      (resolveInputs cwd rid st inp).bucketName = d) ∧
    (truthy st.bucketName = false → truthy inp.domain = false →
      (resolveInputs cwd rid st inp).bucketName = rid ∧
      (rid ≠ "" → (resolveInputs cwd rid st inp).bucketName ≠ "") ∧
      (inp.region = none → (resolveInputs cwd rid st inp).region = "us-east-1")) := by
  refine ⟨?_, ?_, ?_⟩
  · intro x hx hne
    simp [resolveInputs_bucketName, orDefault, truthy, hx, hne]
  · intro d hb hd hne
    have htd : truthy (some d) = true := by simp [truthy, hne]
    simp [resolveInputs_bucketName, orDefault, hb, hd, htd]
  · intro hb hd
    refine ⟨?_, ?_, ?_⟩
    · simp [resolveInputs_bucketName, orDefault, hb, hd]
    · intro hrid
      simp [resolveInputs_bucketName, orDefault, hb, hd, hrid]
    · intro hr
      simp [resolveInputs_region, orDefault, hr, truthy]

/-- Witness for C3 at concrete inputs: persisted name wins, then the
domain, then the generated identifier. -/
theorem bucketName_resolution_priority_witness :
    (resolveInputs "/app" "gen1" { bucketName := some "x" }
      { domain := some "d.com" }).bucketName = "x" ∧
    (resolveInputs "/app" "gen1" {} { domain := some "d.com" }).bucketName = "d.com" ∧
    (resolveInputs "/app" "gen1" {} {}).bucketName = "gen1" ∧
    (resolveInputs "/app" "gen1" {} {}).region = "us-east-1" :=
  ⟨(bucketName_resolution_priority "/app" "gen1" _ _).1 "x" rfl (by decide),
   (bucketName_resolution_priority "/app" "gen1" _ _).2.1 "d.com" (by decide) rfl (by decide),
   ((bucketName_resolution_priority "/app" "gen1" _ _).2.2 (by decide) (by decide)).1,
   ((bucketName_resolution_priority "/app" "gen1" _ _).2.2 (by decide) (by decide)).2.2 rfl⟩

theorem resolveInputs_codeRoot_ne_empty (cwd rid : String) (st : PersistedState)
    (inp : Inputs) (hcwd : cwd ≠ "") :
    (resolveInputs cwd rid st inp).codeRoot ≠ "" := by
  rw [resolveInputs_codeRoot]
  cases hcr : (inp.code.getD {}).root with
  | none => simpa [truthy] using hcwd
  | some p =>
    by_cases hp : p = ""
    · simpa [truthy, hp] using hcwd
    · have htp : truthy (some p) = true := by simp [truthy, hp]
      simp only [htp, if_true, Option.getD_some]
      unfold pathResolve
      split
      · exact hp
      · exact append_sep_ne_empty cwd p

/-- C10: after normalization `code.root` is always a non-empty string
(the resolved supplied path or the working directory), so the
`code.root` conjunct of the env-bundle guard can never be false: the
bundle is written exactly when `env` is supplied with at least one
key. -/
theorem codeRoot_always_nonempty (cwd rid : String) (st : PersistedState) (inp : Inputs)
    (hcwd : cwd ≠ "") :
    (resolveInputs cwd rid st inp).codeRoot ≠ "" ∧
    (envCalls (resolveInputs cwd rid st inp) ≠ [] ↔
      inp.env.isSome = true ∧ (inp.env.getD []).length ≠ 0) := by
  have hroot : (resolveInputs cwd rid st inp).codeRoot ≠ "" :=
    resolveInputs_codeRoot_ne_empty cwd rid st inp hcwd
  refine ⟨hroot, ?_⟩
  cases henv : inp.env with
  | none => simp [envCalls, resolveInputs_env, henv]
  | some l =>
    by_cases hl : l.length = 0
    · simp [envCalls, resolveInputs_env, henv, hl]
    · simp [envCalls, resolveInputs_env, henv, hl, hroot]

/-- Witness for C10: with working directory `/app`, the resolved root is
non-empty and the env bundle is written exactly for a non-empty env. -/
theorem codeRoot_always_nonempty_witness :
    (resolveInputs "/app" "gen1" {} {}).codeRoot ≠ "" ∧
    (envCalls (resolveInputs "/app" "gen1" {} {}) ≠ [] ↔
      (Inputs.env {}).isSome = true ∧ ((Inputs.env {}).getD []).length ≠ 0) :=
  codeRoot_always_nonempty "/app" "gen1" {} {} (by decide)

theorem filter_isDnsDelete_deployCalls (ctx : DeployCtx) (st : PersistedState)
    (inp : Inputs) :
    (deployCalls ctx st inp).filter Event.isDnsDelete =
      driftCalls st (resolveInputs ctx.cwd ctx.resourceId st inp) := by
  simp only [deployCalls]
  unfold provisionCalls domainBindCalls driftCalls envCalls hookCalls
  split <;> split <;> split <;> split <;> rfl

theorem filter_isDomainBind_deployCalls (ctx : DeployCtx) (st : PersistedState)
    (inp : Inputs) :
    (deployCalls ctx st inp).filter Event.isDomainBind =
      domainBindCalls (resolveInputs ctx.cwd ctx.resourceId st inp) := by
  simp only [deployCalls]
  unfold provisionCalls domainBindCalls driftCalls envCalls hookCalls
  split <;> split <;> split <;> split <;> rfl

theorem filter_isSave_deployCalls (ctx : DeployCtx) (st : PersistedState)
    (inp : Inputs) :
    (deployCalls ctx st inp).filter Event.isSave =
      [Event.saveState
        (newDeployState ctx.bucketOutName (resolveInputs ctx.cwd ctx.resourceId st inp))] := by
  simp only [deployCalls]
  unfold provisionCalls domainBindCalls driftCalls envCalls hookCalls
  split <;> split <;> split <;> split <;> rfl

theorem filter_isEnvWrite_deployCalls (ctx : DeployCtx) (st : PersistedState)
    (inp : Inputs) :
    (deployCalls ctx st inp).filter Event.isEnvWrite =
      envCalls (resolveInputs ctx.cwd ctx.resourceId st inp) := by
  simp only [deployCalls]
  unfold provisionCalls domainBindCalls driftCalls envCalls hookCalls
  split <;> split <;> split <;> split <;> rfl

/-- C2: when the persisted domain is truthy and differs from the newly
requested one (including a missing new domain), the deploy emits exactly
two DNS delete calls, for the old bare and `www.`-prefixed domains, with
domain and region taken from the persisted state; when the persisted
domain is absent or equals the new one, the deploy emits no DNS delete
call. -/
theorem drift_deletes_old_domain (ctx : DeployCtx) (st : PersistedState) (inp : Inputs) :
    (truthy st.domain = true → st.domain ≠ inp.domain →
      (deployCalls ctx st inp).filter Event.isDnsDelete =
        [Event.dnsRecord (st.domain.getD "") st.region RecordAction.delete,
         Event.dnsRecord ("www." ++ st.domain.getD "") st.region RecordAction.delete]) ∧
    (truthy st.domain = false ∨ st.domain = inp.domain →
      (deployCalls ctx st inp).filter Event.isDnsDelete = []) := by
  rw [filter_isDnsDelete_deployCalls]
  constructor
  · intro htr hne
    simp [driftCalls, resolveInputs_domain, htr, hne]
  · rintro (h | h)
    · simp [driftCalls, h]
    · simp [driftCalls, resolveInputs_domain, h]

/-- Witness for C2: a changed domain yields exactly the two deletes with
the persisted domain and region; an unchanged domain yields none. -/
theorem drift_deletes_old_domain_witness :
    ((deployCalls ⟨"/app", "rid", "x", "", fun _ => false⟩
        { bucketName := some "x", domain := some "a.com", region := some "us-west-1" }
        { domain := some "b.com" }).filter Event.isDnsDelete =
      [Event.dnsRecord "a.com" (some "us-west-1") RecordAction.delete,
       Event.dnsRecord "www.a.com" (some "us-west-1") RecordAction.delete]) ∧
    ((deployCalls ⟨"/app", "rid", "x", "", fun _ => false⟩
        { bucketName := some "x", domain := some "a.com", region := some "us-west-1" }
        { domain := some "a.com" }).filter Event.isDnsDelete = []) :=
  ⟨(drift_deletes_old_domain _ _ _).1 (by decide) (by decide),
   (drift_deletes_old_domain _ _ _).2 (Or.inr rfl)⟩

/-- C7: with a (truthy) requested domain `d` the deploy provisions a
redirect bucket named exactly `www.<d>`, configures it to redirect to
the bare domain `d`, and upserts DNS alias records for both `d` and
`www.<d>` — these four calls being exactly the domain-binding calls of
the trace, in this order; with no truthy domain requested, the trace
contains no redirect-bucket, redirect-configuration or DNS upsert
call. -/
theorem domain_binding_calls (ctx : DeployCtx) (st : PersistedState) (inp : Inputs) :
    (∀ d, inp.domain = some d → d ≠ "" →
      (deployCalls ctx st inp).filter Event.isDomainBind =
        [Event.deployRedirectBucket ("www." ++ d)
           (resolveInputs ctx.cwd ctx.resourceId st inp).region,
         Event.configureRedirect ("www." ++ d) d,
         Event.dnsRecord d (some (resolveInputs ctx.cwd ctx.resourceId st inp).region)
           RecordAction.upsert,
         Event.dnsRecord ("www." ++ d)
           (some (resolveInputs ctx.cwd ctx.resourceId st inp).region)
           RecordAction.upsert]) ∧
    (truthy inp.domain = false →
      (deployCalls ctx st inp).filter Event.isDomainBind = []) := by
  rw [filter_isDomainBind_deployCalls]
  constructor
  · intro d hd hne
    have htd : truthy (some d) = true := by simp [truthy, hne]
    simp [domainBindCalls, resolveInputs_domain, hd, htd]
  · intro h
    simp [domainBindCalls, resolveInputs_domain, h]

/-- Witness for C7: with domain `example.com` the four binding calls are
emitted; with no domain none are. -/
theorem domain_binding_calls_witness :
    ((deployCalls ⟨"/app", "rid", "x", "", fun _ => false⟩ {}
        { domain := some "example.com" }).filter Event.isDomainBind =
      [Event.deployRedirectBucket "www.example.com" "us-east-1",
       Event.configureRedirect "www.example.com" "example.com",
       Event.dnsRecord "example.com" (some "us-east-1") RecordAction.upsert,
       Event.dnsRecord "www.example.com" (some "us-east-1") RecordAction.upsert]) ∧
    ((deployCalls ⟨"/app", "rid", "x", "", fun _ => false⟩ {} {}).filter
        Event.isDomainBind = []) :=
  ⟨(domain_binding_calls _ _ _).1 "example.com" rfl (by decide),
   (domain_binding_calls _ _ _).2 (by decide)⟩

/-- C4: persisted state is saved by exactly one call of the deploy
trace, the last one, placed right after the upload; and on any run whose
result is an error the persisted state is exactly what it was before the
run. -/
theorem state_persisted_once (ctx : DeployCtx) (st : PersistedState) (inp : Inputs) :
    (deployCalls ctx st inp).filter Event.isSave =
      [Event.saveState
        (newDeployState ctx.bucketOutName (resolveInputs ctx.cwd ctx.resourceId st inp))] ∧
    (∃ pre, deployCalls ctx st inp =
      pre ++ [Event.upload (dirToUpload (resolveInputs ctx.cwd ctx.resourceId st inp)),
              Event.saveState
                (newDeployState ctx.bucketOutName
                  (resolveInputs ctx.cwd ctx.resourceId st inp))]) ∧
    (∀ err, (runDeploy ctx st inp).result = Except.error err →
      (runDeploy ctx st inp).finalState = st) := by
  refine ⟨filter_isSave_deployCalls ctx st inp, ?_, ?_⟩
  · refine ⟨provisionCalls (resolveInputs ctx.cwd ctx.resourceId st inp) ++
      domainBindCalls (resolveInputs ctx.cwd ctx.resourceId st inp) ++
      driftCalls st (resolveInputs ctx.cwd ctx.resourceId st inp) ++
      envCalls (resolveInputs ctx.cwd ctx.resourceId st inp) ++
      hookCalls (resolveInputs ctx.cwd ctx.resourceId st inp), ?_⟩
    simp [deployCalls, List.append_assoc]
  · intro err herr
    simp only [runDeploy] at herr ⊢
    cases hsp : splitAtFailure ctx.oracle (deployCalls ctx st inp) with
    | none =>
      rw [hsp] at herr
      simp at herr
    | some pf =>
      obtain ⟨pre, e⟩ := pf
      rfl

/-- Witness for C4: with an oracle that makes the hosting-configuration
call throw, the deploy run leaves the (empty) persisted state
unchanged. -/
theorem state_persisted_once_witness :
    (runDeploy ⟨"/app", "rid", "x", "",
        fun e => decide (e = Event.configureHosting "rid")⟩ {} {}).finalState =
      ({} : PersistedState) :=
  (state_persisted_once _ _ _).2.2
    (DeployError.provider (Event.configureHosting "rid")) rfl

/-- C1 counterexample: with persisted domain `a.com` (persisted region
`us-west-1`) and newly requested domain `b.com`, the deploy trace has
the DNS upsert of `b.com` at index 4 and the DNS delete of `a.com` only
at index 6: a bind of the new domain occurs before the unbind of the old
one, contradicting the claimed unbind-before-bind order. -/
theorem unbind_before_bind_counterexample :
    (deployCalls ⟨"/app", "rid123", "x", "", fun _ => false⟩
        { bucketName := some "x", domain := some "a.com", region := some "us-west-1",
          url := some "u" }
        { domain := some "b.com" }).get? 4 =
      some (Event.dnsRecord "b.com" (some "us-east-1") RecordAction.upsert) ∧
    (deployCalls ⟨"/app", "rid123", "x", "", fun _ => false⟩
        { bucketName := some "x", domain := some "a.com", region := some "us-west-1",
          url := some "u" }
        { domain := some "b.com" }).get? 6 =
      some (Event.dnsRecord "a.com" (some "us-west-1") RecordAction.delete) ∧
    4 < 6 := by
  refine ⟨?_, ?_, by decide⟩ <;> rfl

/-- C1 (amended): when the persisted state records a truthy domain `od`
different from the truthy newly requested domain `d`, the deploy unbinds
the old bare and `www.`-prefixed records using the previous domain and
region from state, but only after binding the new domain's records: the
trace contains the two upserts of the new domain immediately followed by
the two deletes of the old one. -/
theorem bind_then_unbind_old_domain (ctx : DeployCtx) (st : PersistedState) (inp : Inputs)
    (od d : String) (hst : st.domain = some od) (hod : od ≠ "")
    (hd : inp.domain = some d) (hne : d ≠ "") (hdiff : od ≠ d) :
    ∃ pre post, deployCalls ctx st inp =
      pre ++
        [Event.dnsRecord d (some (resolveInputs ctx.cwd ctx.resourceId st inp).region)
           RecordAction.upsert,
         Event.dnsRecord ("www." ++ d)
           (some (resolveInputs ctx.cwd ctx.resourceId st inp).region)
           RecordAction.upsert,
         Event.dnsRecord od st.region RecordAction.delete,
         Event.dnsRecord ("www." ++ od) st.region RecordAction.delete] ++ post := by
  have htd : truthy (some d) = true := by simp [truthy, hne]
  have htod : truthy (some od) = true := by simp [truthy, hod]
  refine ⟨provisionCalls (resolveInputs ctx.cwd ctx.resourceId st inp) ++
    [Event.deployRedirectBucket ("www." ++ d)
       (resolveInputs ctx.cwd ctx.resourceId st inp).region,
     Event.configureRedirect ("www." ++ d) d],
    envCalls (resolveInputs ctx.cwd ctx.resourceId st inp) ++
    hookCalls (resolveInputs ctx.cwd ctx.resourceId st inp) ++
    [Event.upload (dirToUpload (resolveInputs ctx.cwd ctx.resourceId st inp))] ++
    [Event.saveState
      (newDeployState ctx.bucketOutName (resolveInputs ctx.cwd ctx.resourceId st inp))], ?_⟩
  simp [deployCalls, domainBindCalls, driftCalls, resolveInputs_domain, hst, hd, htd,
    htod, hdiff, List.append_assoc]

/-- Witness for C1 (amended) at the counterexample's inputs. -/
theorem bind_then_unbind_old_domain_witness :
    ∃ pre post, deployCalls ⟨"/app", "rid123", "x", "", fun _ => false⟩
        { bucketName := some "x", domain := some "a.com", region := some "us-west-1",
          url := some "u" }
        { domain := some "b.com" } =
      pre ++
        [Event.dnsRecord "b.com"
           (some (resolveInputs "/app" "rid123"
             { bucketName := some "x", domain := some "a.com", region := some "us-west-1",
               url := some "u" }
             { domain := some "b.com" }).region)
           RecordAction.upsert,
         Event.dnsRecord "www.b.com"
           (some (resolveInputs "/app" "rid123"
             { bucketName := some "x", domain := some "a.com", region := some "us-west-1",
               url := some "u" }
             { domain := some "b.com" }).region)
           RecordAction.upsert,
         Event.dnsRecord "a.com" (some "us-west-1") RecordAction.delete,
         Event.dnsRecord "www.a.com" (some "us-west-1") RecordAction.delete] ++ post :=
  bind_then_unbind_old_domain _ _ _ "a.com" "b.com" rfl (by decide) rfl (by decide)
    (by decide)

theorem filter_isHook_preHookCalls (st : PersistedState) (r : ResolvedInputs) :
    ((provisionCalls r ++ domainBindCalls r ++ driftCalls st r ++ envCalls r).filter
      Event.isHook) = [] := by
  unfold provisionCalls domainBindCalls driftCalls envCalls
  split <;> split <;> split <;> rfl

theorem filter_isUpload_preHookCalls (st : PersistedState) (r : ResolvedInputs) :
    ((provisionCalls r ++ domainBindCalls r ++ driftCalls st r ++ envCalls r).filter
      Event.isUpload) = [] := by
  unfold provisionCalls domainBindCalls driftCalls envCalls
  split <;> split <;> split <;> rfl

/-- C5: when a build hook is supplied and the hook execution fails (and
nothing else does), the deploy's result is the wrapped descriptive error
containing the hook command and the captured stderr, and the trace
contains no upload call. -/
theorem hook_failure_aborts (ctx : DeployCtx) (st : PersistedState) (inp : Inputs)
    (cmd : String) (hhook : (inp.code.getD {}).hook = some cmd) (hcmd : cmd ≠ "")
    (horacle : ∀ e, ctx.oracle e = Event.isHook e) :
    (runDeploy ctx st inp).result =
      Except.error (DeployError.hookFailed
        ("Failed building website via \"" ++ cmd ++
          "\" due to the following error: \"" ++ ctx.hookStderr ++ "\"")) ∧
    (runDeploy ctx st inp).trace.filter Event.isUpload = [] ∧
    ∃ a b c, "Failed building website via \"" ++ cmd ++
        "\" due to the following error: \"" ++ ctx.hookStderr ++ "\"" =
      a ++ cmd ++ b ++ ctx.hookStderr ++ c := by
  have hrh : (resolveInputs ctx.cwd ctx.resourceId st inp).hook = some cmd := by
    rw [resolveInputs_hook, hhook]
  have hhc : hookCalls (resolveInputs ctx.cwd ctx.resourceId st inp) =
      [Event.runHook cmd (resolveInputs ctx.cwd ctx.resourceId st inp).codeRoot] := by
    simp [hookCalls, hrh, truthy, hcmd]
  have hpre : ∀ e ∈ provisionCalls (resolveInputs ctx.cwd ctx.resourceId st inp) ++
      domainBindCalls (resolveInputs ctx.cwd ctx.resourceId st inp) ++
      driftCalls st (resolveInputs ctx.cwd ctx.resourceId st inp) ++
      envCalls (resolveInputs ctx.cwd ctx.resourceId st inp), ctx.oracle e = false := by
    intro e he
    rw [horacle]
    have hmem := List.filter_eq_nil_iff.mp
      (filter_isHook_preHookCalls st (resolveInputs ctx.cwd ctx.resourceId st inp)) e he
    simpa using hmem
  have hshape : deployCalls ctx st inp =
      (provisionCalls (resolveInputs ctx.cwd ctx.resourceId st inp) ++
       domainBindCalls (resolveInputs ctx.cwd ctx.resourceId st inp) ++
       driftCalls st (resolveInputs ctx.cwd ctx.resourceId st inp) ++
       envCalls (resolveInputs ctx.cwd ctx.resourceId st inp)) ++
      (Event.runHook cmd (resolveInputs ctx.cwd ctx.resourceId st inp).codeRoot ::
       ([Event.upload (dirToUpload (resolveInputs ctx.cwd ctx.resourceId st inp))] ++
        [Event.saveState (newDeployState ctx.bucketOutName
          (resolveInputs ctx.cwd ctx.resourceId st inp))])) := by
    simp [deployCalls, hhc, List.append_assoc]
  have hsp : splitAtFailure ctx.oracle (deployCalls ctx st inp) =
      some (provisionCalls (resolveInputs ctx.cwd ctx.resourceId st inp) ++
        domainBindCalls (resolveInputs ctx.cwd ctx.resourceId st inp) ++
        driftCalls st (resolveInputs ctx.cwd ctx.resourceId st inp) ++
        envCalls (resolveInputs ctx.cwd ctx.resourceId st inp),
        Event.runHook cmd (resolveInputs ctx.cwd ctx.resourceId st inp).codeRoot) := by
    rw [hshape, splitAtFailure_append _ _ _ hpre]
    have hoh : ctx.oracle
        (Event.runHook cmd (resolveInputs ctx.cwd ctx.resourceId st inp).codeRoot) =
        true := by rw [horacle]; rfl
    simp [splitAtFailure, hoh]
  have htr : (runDeploy ctx st inp).trace =
      (provisionCalls (resolveInputs ctx.cwd ctx.resourceId st inp) ++
       domainBindCalls (resolveInputs ctx.cwd ctx.resourceId st inp) ++
       driftCalls st (resolveInputs ctx.cwd ctx.resourceId st inp) ++
       envCalls (resolveInputs ctx.cwd ctx.resourceId st inp)) ++
      [Event.runHook cmd (resolveInputs ctx.cwd ctx.resourceId st inp).codeRoot] := by
    simp only [runDeploy]
    rw [hsp]
  refine ⟨?_, ?_, "Failed building website via \"",
    "\" due to the following error: \"", "\"", rfl⟩
  · simp only [runDeploy]
    rw [hsp]
    rfl
  · rw [htr, List.filter_append, filter_isUpload_preHookCalls]
    rfl

/-- Witness for C5: with hook `make build` failing with stderr `boom`,
the deploy errors with the wrapped message and makes no upload call. -/
theorem hook_failure_aborts_witness :
    (runDeploy ⟨"/app", "rid", "x", "boom", Event.isHook⟩ {}
        { code := some { hook := some "make build" } }).result =
      Except.error (DeployError.hookFailed
        "Failed building website via \"make build\" due to the following error: \"boom\"") ∧
    (runDeploy ⟨"/app", "rid", "x", "boom", Event.isHook⟩ {}
        { code := some { hook := some "make build" } }).trace.filter Event.isUpload = [] ∧
    ∃ a b c, "Failed building website via \"make build\" due to the following error: \"boom\"" =
      a ++ "make build" ++ b ++ "boom" ++ c :=
  hook_failure_aborts ⟨"/app", "rid", "x", "boom", Event.isHook⟩ {}
    { code := some { hook := some "make build" } } "make build" rfl (by decide)
    (fun _ => rfl)

/-- C6: `remove` on state with a bucket name and a (truthy) domain
removes the primary bucket, deletes both the bare and `www.`-prefixed
DNS records using the persisted domain and region, removes the redirect
bucket, and finally persists empty state; on state with no truthy domain
it only removes the primary bucket and persists empty state, with no DNS
or redirect-bucket call at all. -/
theorem remove_workflow (o : Event → Bool) (st : PersistedState)
    (ho : ∀ e, o e = false) :
    (∀ x d, st.bucketName = some x → st.domain = some d → d ≠ "" →
      (runRemove o st).trace =
        [Event.removeChild "websiteBucket",
         Event.dnsRecord d st.region RecordAction.delete,
         Event.dnsRecord ("www." ++ d) st.region RecordAction.delete,
         Event.removeChild "redirectBucket",
         Event.saveState emptyState] ∧
      (runRemove o st).finalState = emptyState) ∧
    (truthy st.domain = false →
      (runRemove o st).trace =
        [Event.removeChild "websiteBucket", Event.saveState emptyState] ∧
      (runRemove o st).finalState = emptyState) := by
  have hsp : splitAtFailure o (removeCalls st) = none :=
    splitAtFailure_eq_none o _ (fun e _ => ho e)
  have htr : (runRemove o st).trace = removeCalls st := by
    simp only [runRemove]
    rw [hsp]
  have hfs : (runRemove o st).finalState = emptyState := by
    simp only [runRemove]
    rw [hsp]
  constructor
  · intro x d hx hd hne
    have htd : truthy (some d) = true := by simp [truthy, hne]
    refine ⟨?_, hfs⟩
    rw [htr]
    simp [removeCalls, hd, htd]
  · intro h
    refine ⟨?_, hfs⟩
    rw [htr]
    simp [removeCalls, h]

/-- Witness for C6 at concrete states with and without a domain. -/
theorem remove_workflow_witness :
    ((runRemove (fun _ => false)
        { bucketName := some "x", domain := some "example.com",
          region := some "us-east-1" }).trace =
      [Event.removeChild "websiteBucket",
       Event.dnsRecord "example.com" (some "us-east-1") RecordAction.delete,
       Event.dnsRecord "www.example.com" (some "us-east-1") RecordAction.delete,
       Event.removeChild "redirectBucket",
       Event.saveState emptyState] ∧
     (runRemove (fun _ => false)
        { bucketName := some "x", domain := some "example.com",
          region := some "us-east-1" }).finalState = emptyState) ∧
    ((runRemove (fun _ => false) { bucketName := some "x" }).trace =
      [Event.removeChild "websiteBucket", Event.saveState emptyState] ∧
     (runRemove (fun _ => false) { bucketName := some "x" }).finalState = emptyState) :=
  ⟨(remove_workflow (fun _ => false) _ (fun _ => rfl)).1 "x" "example.com" rfl rfl
      (by decide),
   (remove_workflow (fun _ => false) _ (fun _ => rfl)).2 (by decide)⟩

/-- C8: with a non-empty `env` mapping supplied, the deploy writes
exactly one env bundle, the file `env.js` inside the resolved
`code.root`, whose content renders each entry as a global-variable
assignment with the value JSON-encoded; for `env = [(API, "https://x")]`
the rendered bundle is the header plus the assignment with the JSON
string of `https://x`; with `env` absent or empty no bundle is
written. -/
theorem env_bundle_written (ctx : DeployCtx) (st : PersistedState) (inp : Inputs)
    (l : List (String × JsonValue)) (hcwd : ctx.cwd ≠ "") :
    (inp.env = some l → l ≠ [] →
      (deployCalls ctx st inp).filter Event.isEnvWrite =
        [Event.writeEnvFile
          (pathJoin (resolveInputs ctx.cwd ctx.resourceId st inp).codeRoot "env.js")
          (envScript l)]) ∧
    envScript [("API", JsonValue.str "https://x")] =
      "window.env = \x7b\x7d;\nwindow.env.API = \"https://x\";\n" ∧
    (inp.env = none ∨ inp.env = some [] →
      (deployCalls ctx st inp).filter Event.isEnvWrite = []) := by
  rw [filter_isEnvWrite_deployCalls]
  have hroot : (resolveInputs ctx.cwd ctx.resourceId st inp).codeRoot ≠ "" :=
    resolveInputs_codeRoot_ne_empty ctx.cwd ctx.resourceId st inp hcwd
  refine ⟨?_, by rfl, ?_⟩
  · intro henv hl
    have hlen : l.length ≠ 0 := fun h => hl (List.length_eq_zero.mp h)
    simp [envCalls, resolveInputs_env, henv, hlen, hroot]
  · rintro (h | h) <;> simp [envCalls, resolveInputs_env, h]

/-- Witness for C8: a one-entry env yields exactly the `env.js` write
with the rendered script; an absent env yields no write. -/
theorem env_bundle_written_witness :
    ((deployCalls ⟨"/app", "rid", "x", "", fun _ => false⟩ {}
        { env := some [("API", JsonValue.str "https://x")] }).filter Event.isEnvWrite =
      [Event.writeEnvFile "/app/env.js"
        "window.env = \x7b\x7d;\nwindow.env.API = \"https://x\";\n"]) ∧
    ((deployCalls ⟨"/app", "rid", "x", "", fun _ => false⟩ {} {}).filter
        Event.isEnvWrite = []) :=
  ⟨(env_bundle_written ⟨"/app", "rid", "x", "", fun _ => false⟩ {}
      { env := some [("API", JsonValue.str "https://x")] }
      [("API", JsonValue.str "https://x")] (by decide)).1 rfl (by decide),
   (env_bundle_written ⟨"/app", "rid", "x", "", fun _ => false⟩ {} {}
      [] (by decide)).2.2 (Or.inl rfl)⟩

/-- C9: a fully successful deploy persists the resolved bucket name,
the requested domain, the resolved region, and the website-endpoint URL
built from the bucket name returned by the bucket component and the
region, and returns outputs with that URL, the echo of the input env,
and an `http://`-prefixed domain exactly when a (truthy) domain was
requested. -/
theorem deploy_persists_state_and_outputs (ctx : DeployCtx) (st : PersistedState)
    (inp : Inputs) (ho : ∀ e, ctx.oracle e = false) :
    (runDeploy ctx st inp).finalState =
      { bucketName := some (resolveInputs ctx.cwd ctx.resourceId st inp).bucketName
        domain := inp.domain
        region := some (resolveInputs ctx.cwd ctx.resourceId st inp).region
        url := some ("http://" ++ ctx.bucketOutName ++ ".s3-website-" ++
          (resolveInputs ctx.cwd ctx.resourceId st inp).region ++ ".amazonaws.com") } ∧
    (runDeploy ctx st inp).result = Except.ok
      { url := "http://" ++ ctx.bucketOutName ++ ".s3-website-" ++
          (resolveInputs ctx.cwd ctx.resourceId st inp).region ++ ".amazonaws.com"
        env := inp.env.getD []
        domain := if truthy inp.domain then some ("http://" ++ inp.domain.getD "")
          else none } := by
  have hsp : splitAtFailure ctx.oracle (deployCalls ctx st inp) = none :=
    splitAtFailure_eq_none _ _ (fun e _ => ho e)
  constructor
  · simp only [runDeploy]
    rw [hsp]
    rfl
  · simp only [runDeploy]
    rw [hsp]
    rfl

/-- Witness for C9 at a concrete successful deploy with a domain. -/
theorem deploy_persists_state_and_outputs_witness :
    (runDeploy ⟨"/app", "rid", "x", "", fun _ => false⟩ {}
        { domain := some "example.com" }).finalState =
      { bucketName := some "example.com"
        domain := some "example.com"
        region := some "us-east-1"
        url := some "http://x.s3-website-us-east-1.amazonaws.com" } ∧
    (runDeploy ⟨"/app", "rid", "x", "", fun _ => false⟩ {}
        { domain := some "example.com" }).result = Except.ok
      { url := "http://x.s3-website-us-east-1.amazonaws.com"
        env := []
        domain := some "http://example.com" } :=
  deploy_persists_state_and_outputs ⟨"/app", "rid", "x", "", fun _ => false⟩ {}
    { domain := some "example.com" } (fun _ => rfl)
